import Mathlib

/-!
Shallow embedding of the Lucille Protocol MCP server (src/index.ts).

The server is a stateless gateway: each tool call issues at most one HTTP
request and formats the JSON response (or the classified failure) into a
single text result.  We model:

* JSON values (`JsVal`) with integer numerics.  The upstream bodies are
  JSON; fractional numbers are outside this model, so `parseJson` fails on
  them where JavaScript would succeed.
* JavaScript semantics used by the source: property access (`jsGetField`,
  returning `none` for `undefined`), truthiness (`jsTruthy`), template
  interpolation (`jsInterp`), `String.prototype.slice` (`jsSlice`),
  `String.prototype.includes` (`strIncludes`), `JSON.parse` (`parseJson`)
  and `JSON.stringify` (`jsonStringify`, `jsonStringifyPretty`).
* The thrown values reaching the catch-all handler (`Err`) and the error
  classifier `errorContent`.
* Each tool handler as a pure function of its validated parameters and of
  the upstream outcome `resp : Except Err JsVal` (the environment of the
  single `await`ed HTTP call; tools that perform no network call ignore it).
-/

/-- JSON value, as produced by `JSON.parse`.  Numbers are modelled as
integers; fractional and exponent forms are outside the model. -/
inductive JsVal where
  | null
  | bool (b : Bool)
  | num (n : Int)
  | str (s : String)
  | arr (elems : List JsVal)
  | obj (fields : List (String × JsVal))

/-- Property access `v[key]`.  Returns `none` for JavaScript `undefined`
(missing key, or access on a non-object).  For duplicate keys the last
binding wins, as in `JSON.parse`. -/
def jsGetField : JsVal → String → Option JsVal
  | .obj fields, key => (fields.reverse.find? (fun p => p.1 == key)).map (fun p => p.2)
  | _, _ => none

/-- Optional chaining `v?.[key]`: `undefined` when the base is `null` or
`undefined`, plain access otherwise. -/
def optChain (o : Option JsVal) (key : String) : Option JsVal :=
  match o with
  | none => none
  | some .null => none
  | some v => jsGetField v key

/-- JavaScript truthiness of a possibly-`undefined` value. -/
def jsTruthy : Option JsVal → Bool
  | none => false
  | some .null => false
  | some (.bool b) => b
  | some (.num n) => n != 0
  | some (.str s) => s != ""
  | some (.arr _) => true
  | some (.obj _) => true

mutual

/-- Structural size of a JSON value, used as recursion fuel. -/
def jsSize : JsVal → Nat
  | .arr elems => 1 + jsSizeL elems
  | .obj fields => 1 + jsSizeF fields
  | _ => 1

/-- Structural size of a list of JSON values. -/
def jsSizeL : List JsVal → Nat
  | [] => 0
  | v :: rest => jsSize v + jsSizeL rest

/-- Structural size of a list of object members. -/
def jsSizeF : List (String × JsVal) → Nat
  | [] => 0
  | p :: rest => jsSize p.2 + jsSizeF rest

end

/-- Fuel-indexed JavaScript `toString` (array elements joined by `","`,
with `null` rendered empty inside arrays, as `Array.prototype.join` does). -/
def jsToStringF : Nat → JsVal → String
  | _, .null => "null"
  | _, .bool true => "true"
  | _, .bool false => "false"
  | _, .num n => toString n
  | _, .str s => s
  | _, .obj _ => "[object Object]"
  | 0, .arr _ => ""
  | fuel + 1, .arr elems =>
      String.intercalate "," (elems.map (fun e =>
        match e with
        | .null => ""
        | v => jsToStringF fuel v))

/-- JavaScript `toString` of a value. -/
def jsToString (v : JsVal) : String := jsToStringF (jsSize v) v

/-- Template interpolation `${x}` of a possibly-`undefined` value. -/
def jsInterp : Option JsVal → String
  | none => "undefined"
  | some v => jsToString v

/-- The pattern `x || ""` followed by interpolation: the value as a string
when truthy, the empty string otherwise. -/
def jsStrOrEmpty (o : Option JsVal) : String :=
  if jsTruthy o then jsInterp o else ""

/-- JavaScript `String.prototype.slice` with an optional end index. -/
def jsSlice (s : String) (start : Int) (stop : Option Int) : String :=
  let len : Int := s.length
  let clamp : Int → Int := fun i => if i < 0 then max (len + i) 0 else min i len
  let a := clamp start
  let b := match stop with
    | none => len
    | some i => clamp i
  String.mk ((s.data.drop a.toNat).take (b - a).toNat)

/-- Boolean infix test on lists, used for `String.prototype.includes`. -/
def listIsInfix [BEq α] (needle : List α) : List α → Bool
  | [] => needle.isEmpty
  | a :: rest => needle.isPrefixOf (a :: rest) || listIsInfix needle rest

/-- JavaScript `haystack.includes(needle)`. -/
def strIncludes (haystack needle : String) : Bool :=
  listIsInfix needle.data haystack.data

/-- Whitespace recognised by `String.prototype.trim` (ASCII fragment). -/
def jsWsChar : Char → Bool
  | ' ' => true
  | '\t' => true
  | '\n' => true
  | '\r' => true
  | _ => false

/-- JavaScript `String.prototype.trim` (over the ASCII whitespace that can
occur in the formatted output). -/
def jsTrim (s : String) : String :=
  String.mk (((s.data.dropWhile jsWsChar).reverse.dropWhile jsWsChar).reverse)

/-! ### JSON.parse -/

/-- JSON whitespace skipping. -/
def skipWs : List Char → List Char
  | [] => []
  | c :: cs => if jsWsChar c then skipWs cs else c :: cs

/-- Hexadecimal digit value, for `\u` escapes. -/
def hexVal (c : Char) : Option Nat :=
  if 48 ≤ c.toNat ∧ c.toNat ≤ 57 then some (c.toNat - 48)
  else if 97 ≤ c.toNat ∧ c.toNat ≤ 102 then some (c.toNat - 87)
  else if 65 ≤ c.toNat ∧ c.toNat ≤ 70 then some (c.toNat - 55)
  else none

/-- Body of a JSON string literal, after the opening quote; returns the
decoded string and the input after the closing quote. -/
def parseStringAux : List Char → List Char → Option (String × List Char)
  | _, [] => none
  | acc, c :: cs =>
    if c == '"' then some (String.mk acc.reverse, cs)
    else if c == '\\' then
      match cs with
      | [] => none
      | e :: cs2 =>
        if e == '"' then parseStringAux ('"' :: acc) cs2
        else if e == '\\' then parseStringAux ('\\' :: acc) cs2
        else if e == '/' then parseStringAux ('/' :: acc) cs2
        else if e == 'n' then parseStringAux ('\n' :: acc) cs2
        else if e == 't' then parseStringAux ('\t' :: acc) cs2
        else if e == 'r' then parseStringAux ('\r' :: acc) cs2
        else if e == 'b' then parseStringAux ('\x08' :: acc) cs2
        else if e == 'f' then parseStringAux ('\x0C' :: acc) cs2
        else if e == 'u' then
          match cs2 with
          | h1 :: h2 :: h3 :: h4 :: cs3 =>
            match hexVal h1, hexVal h2, hexVal h3, hexVal h4 with
            | some a, some b, some c3, some d =>
                parseStringAux (Char.ofNat (((a * 16 + b) * 16 + c3) * 16 + d) :: acc) cs3
            | _, _, _, _ => none
          | _ => none
        else none
    else if c.toNat < 32 then none
    else parseStringAux (c :: acc) cs

/-- Leading decimal digits of the input. -/
def parseDigits : List Char → List Char × List Char
  | [] => ([], [])
  | c :: cs =>
    if c.isDigit then
      let (ds, r) := parseDigits cs
      (c :: ds, r)
    else ([], c :: cs)

/-- Numeric value of a digit string. -/
def natOfDigits (ds : List Char) : Nat :=
  ds.foldl (fun n c => n * 10 + (c.toNat - 48)) 0

/-- JSON number (integer grammar: optional minus, digits without a leading
zero; a following `.`/`e`/`E` is a fractional form, outside the model). -/
def parseNumber (cs : List Char) : Option (JsVal × List Char) :=
  let signed := match cs with
    | '-' :: r => (true, r)
    | _ => (false, cs)
  let (ds, rest) := parseDigits signed.2
  match ds with
  | [] => none
  | d :: ds' =>
    if d == '0' ∧ ds' ≠ [] then none
    else
      match rest with
      | '.' :: _ => none
      | 'e' :: _ => none
      | 'E' :: _ => none
      | _ =>
        let n : Int := natOfDigits ds
        some (.num (if signed.1 then -n else n), rest)

/-- Opening brace character. -/
def braceOpen : Char := Char.ofNat 123

/-- Closing brace character. -/
def braceClose : Char := Char.ofNat 125

/-- Parser mode: a single value, the items of an array after `[`, or the
members of an object after the opening brace. -/
inductive PMode where
  | value
  | arrItems (acc : List JsVal)
  | objItems (acc : List (String × JsVal))

/-- Parser outcome for the three modes. -/
inductive POut where
  | val (v : JsVal) (rest : List Char)
  | items (vs : List JsVal) (rest : List Char)
  | fields (fs : List (String × JsVal)) (rest : List Char)

/-- Recursive JSON parser, fuel-indexed so that every definition reduces in
the kernel. -/
def pRun : Nat → PMode → List Char → Option POut
  | 0, _, _ => none
  | fuel + 1, .value, cs =>
    match skipWs cs with
    | [] => none
    | c :: rest =>
      if c == '"' then
        match parseStringAux [] rest with
        | some (s, r) => some (.val (.str s) r)
        | none => none
      else if c == '[' then
        match skipWs rest with
        | ']' :: r => some (.val (.arr []) r)
        | _ =>
          match pRun fuel (.arrItems []) rest with
          | some (.items vs r) => some (.val (.arr vs) r)
          | _ => none
      else if c == braceOpen then
        match skipWs rest with
        | d :: r =>
          if d == braceClose then some (.val (.obj []) r)
          else
            match pRun fuel (.objItems []) rest with
            | some (.fields fs r2) => some (.val (.obj fs) r2)
            | _ => none
        | [] => none
      else if c == 't' then
        match rest with
        | 'r' :: 'u' :: 'e' :: r => some (.val (.bool true) r)
        | _ => none
      else if c == 'f' then
        match rest with
        | 'a' :: 'l' :: 's' :: 'e' :: r => some (.val (.bool false) r)
        | _ => none
      else if c == 'n' then
        match rest with
        | 'u' :: 'l' :: 'l' :: r => some (.val .null r)
        | _ => none
      else
        match parseNumber (c :: rest) with
        | some (v, r) => some (.val v r)
        | none => none
  | fuel + 1, .arrItems acc, cs =>
    match pRun fuel .value cs with
    | some (.val v rest) =>
      match skipWs rest with
      | ',' :: more => pRun fuel (.arrItems (v :: acc)) more
      | ']' :: more => some (.items (v :: acc).reverse more)
      | _ => none
    | _ => none
  | fuel + 1, .objItems acc, cs =>
    match skipWs cs with
    | '"' :: rest =>
      match parseStringAux [] rest with
      | some (k, rest2) =>
        match skipWs rest2 with
        | ':' :: rest3 =>
          match pRun fuel .value rest3 with
          | some (.val v rest4) =>
            match skipWs rest4 with
            | ',' :: more => pRun fuel (.objItems ((k, v) :: acc)) more
            | d :: more =>
              if d == braceClose then some (.fields ((k, v) :: acc).reverse more)
              else none
            | [] => none
          | _ => none
        | _ => none
      | none => none
    | _ => none

/-- JavaScript `JSON.parse`, `none` when parsing throws. -/
def parseJson (s : String) : Option JsVal :=
  match pRun (2 * s.data.length + 8) .value s.data with
  | some (.val v rest) => if skipWs rest = [] then some v else none
  | _ => none

/-! ### JSON.stringify -/

/-- Hexadecimal digit character (lowercase), for control-character escapes. -/
def hexNibble (n : Nat) : Char :=
  if n < 10 then Char.ofNat (48 + n) else Char.ofNat (87 + n)

/-- Escape of one character inside a JSON string literal. -/
def escJsonChar (c : Char) : String :=
  if c == '"' then "\\\""
  else if c == '\\' then "\\\\"
  else if c == '\n' then "\\n"
  else if c == '\r' then "\\r"
  else if c == '\t' then "\\t"
  else if c == '\x08' then "\\b"
  else if c == '\x0C' then "\\f"
  else if c.toNat < 32 then
    "\\u00" ++ String.mk [hexNibble (c.toNat / 16), hexNibble (c.toNat % 16)]
  else String.mk [c]

/-- JSON string literal for `s`. -/
def quoteJson (s : String) : String :=
  "\"" ++ String.join (s.data.map escJsonChar) ++ "\""

/-- Fuel-indexed compact `JSON.stringify`. -/
def jsonStringifyF : Nat → JsVal → String
  | _, .null => "null"
  | _, .bool true => "true"
  | _, .bool false => "false"
  | _, .num n => toString n
  | _, .str s => quoteJson s
  | 0, .arr _ => ""
  | 0, .obj _ => ""
  | fuel + 1, .arr elems =>
      "[" ++ String.intercalate "," (elems.map (jsonStringifyF fuel)) ++ "]"
  | fuel + 1, .obj fields =>
      "\x7b" ++
        String.intercalate ","
          (fields.map (fun p => quoteJson p.1 ++ ":" ++ jsonStringifyF fuel p.2)) ++
        "\x7d"

/-- Compact `JSON.stringify(v)`. -/
def jsonStringify (v : JsVal) : String := jsonStringifyF (jsSize v) v

/-- Indentation of `JSON.stringify(v, null, 2)` at a given depth. -/
def indentPad (depth : Nat) : String := String.mk (List.replicate (2 * depth) ' ')

/-- Fuel-indexed `JSON.stringify(v, null, 2)`. -/
def jsonStringifyPrettyF : Nat → Nat → JsVal → String
  | _, _, .null => "null"
  | _, _, .bool true => "true"
  | _, _, .bool false => "false"
  | _, _, .num n => toString n
  | _, _, .str s => quoteJson s
  | 0, _, .arr _ => ""
  | 0, _, .obj _ => ""
  | _ + 1, _, .arr [] => "[]"
  | _ + 1, _, .obj [] => "\x7b\x7d"
  | fuel + 1, depth, .arr elems =>
      "[\n" ++
        String.intercalate ",\n"
          (elems.map (fun e => indentPad (depth + 1) ++ jsonStringifyPrettyF fuel (depth + 1) e)) ++
        "\n" ++ indentPad depth ++ "]"
  | fuel + 1, depth, .obj fields =>
      "\x7b\n" ++
        String.intercalate ",\n"
          (fields.map (fun p =>
            indentPad (depth + 1) ++ quoteJson p.1 ++ ": " ++
              jsonStringifyPrettyF fuel (depth + 1) p.2)) ++
        "\n" ++ indentPad depth ++ "\x7d"

/-- `JSON.stringify(v, null, 2)`. -/
def jsonStringifyPretty (v : JsVal) : String := jsonStringifyPrettyF (jsSize v) 0 v

/-- Object literal whose fields may be `undefined`; `JSON.stringify` omits
`undefined`-valued keys. -/
def jsObjOfOpt (fields : List (String × Option JsVal)) : JsVal :=
  .obj (fields.filterMap (fun p => p.2.map (fun v => (p.1, v))))

/-! ### Tool results and the error classifier -/

/-- One item of a tool result (the server only ever produces text items). -/
inductive McpContent where
  | text (s : String)

/-- A tool result: the `content` array returned to the MCP host. -/
structure McpResult where
  content : List McpContent

/-- The `textContent` helper of the source. -/
def textContent (text : String) : McpResult := ⟨[.text text]⟩

/-- Concatenated text of a result, for stating containment properties. -/
def resultText (r : McpResult) : String :=
  String.join (r.content.map (fun c => match c with | .text s => s))

/-- A failure reaching the catch-all handler: an `ApiError` carrying the
HTTP status and raw body, any other `Error` carrying its message, or a
thrown non-`Error` value. -/
inductive Err where
  | apiError (status : Nat) (body : String)
  | jsError (message : String)
  | nonError

/-- The 429 branch of `errorContent`: `JSON.parse` the body and read
`retry_after_seconds || 60`.  Property access on a parsed `null` throws in
JavaScript and lands in the same catch, which uses the fixed wait of 60. -/
def rateLimited429 (body : String) : McpResult :=
  match parseJson body with
  | none =>
      textContent "⏳ Rate limited — wait 60 seconds and try again.\nLimit: 3 plays/min per wallet, 60 reads/min."
  | some .null =>
      textContent "⏳ Rate limited — wait 60 seconds and try again.\nLimit: 3 plays/min per wallet, 60 reads/min."
  | some parsed =>
      let wait :=
        if jsTruthy (jsGetField parsed "retry_after_seconds") then
          jsInterp (jsGetField parsed "retry_after_seconds")
        else "60"
      textContent ("⏳ Rate limited — wait " ++ wait ++
        " seconds and try again.\nLimit: 3 plays/min per wallet, 60 reads/min.")

/-- The error classifier `errorContent` of the source. -/
def errorContent : Err → McpResult
  | .apiError status body =>
    if status == 429 then rateLimited429 body
    else if status == 400 then
      textContent ("❌ Bad request: " ++ (if body == "" then "Check your parameters." else body) ++
        "\nDouble-check wallet address format (0x... 42 chars) and message length (1-500 chars).")
    else if status == 503 then
      textContent "🔧 Lucille is sleeping (maintenance). Try again in a few minutes."
    else
      textContent ("❌ API error (" ++ toString status ++ "): " ++
        (if body == "" then "Unknown error" else body) ++
        "\nIf this persists, the game may be temporarily unavailable.")
  | .jsError message =>
    if strIncludes message "fetch failed" || strIncludes message "ECONNREFUSED" then
      textContent "🔌 Cannot reach Lucille API. The server may be down or the URL may be wrong.\nDefault: https://lucille.world/api/brain"
    else
      textContent ("❌ Error: " ++ message)
  | .nonError => textContent "❌ An unexpected error occurred. Try again."

/-! ### Tool handlers

Each handler takes its (schema-validated) parameters and the outcome of its
single upstream HTTP call; the `.error` case is the `catch (err)` branch of
the source, the `.ok` case its response formatting. -/

/-- Truthiness of an optional numeric parameter (`undefined` and `0` are
falsy). -/
def optIntTruthy : Option Int → Bool
  | none => false
  | some n => n != 0

/-- Truthiness of an optional string parameter (`undefined` and `""` are
falsy). -/
def optStrTruthy : Option String → Bool
  | none => false
  | some s => s != ""

/-- Interpolation of an optional numeric parameter. -/
def optIntStr : Option Int → String
  | none => "undefined"
  | some n => toString n

/-- Value of an optional string parameter. -/
def optStrVal : Option String → String
  | none => "undefined"
  | some s => s

/-- JavaScript strict equality `v === s` against a string literal. -/
def jsStrEq : Option JsVal → String → Bool
  | some (.str t), s => t == s
  | _, _ => false

/-- The static text of `lucille_rules`. -/
def rulesText : String :=
  "# Lucille Protocol — Game Rules\n" ++
  "\n" ++
  "## What is this?\n" ++
  "Lucille Protocol is an AI-powered game on Base (Ethereum L2). \n" ++
  "You send a message trying to convince Lucille to go on a date. \n" ++
  "An AI evaluates your message and gives you a score (0-100).\n" ++
  "If your score >= the threshold, you WIN the jackpot (ETH).\n" ++
  "\n" ++
  "## How Scoring Works\n" ++
  "- Your message is evaluated by an AI (Claude) based on creativity, charm, and personality match\n" ++
  "- The threshold starts high (~95%) and decreases over turns\n" ++
  "- Lucille has a personality that changes each round — read it and tailor your message!\n" ++
  "\n" ++
  "## How to Win\n" ++
  "1. Call lucille_personality to learn who Lucille is right now\n" ++
  "2. Call lucille_round_strategy to see the threshold and tips\n" ++
  "3. Call lucille_play with a thoughtful, creative message\n" ++
  "4. If score >= threshold → you WIN! ETH is sent to your wallet automatically\n" ++
  "\n" ++
  "## Cost (Sepolia Testnet)\n" ++
  "- Free to play! Use lucille_claim_eth to get test ETH for gas\n" ++
  "- Rate limit: 3 plays per minute\n" ++
  "\n" ++
  "## Important\n" ++
  "- Quality > quantity. One great message beats 100 generic ones\n" ++
  "- Read Lucille\x27s likes, hates, and mood before playing\n" ++
  "- Never break her character — she\x27s a real person, not a bot\n" ++
  "- On mainnet: each play costs gas. Calculate your ROI."

/-- Tool 1, `lucille_rules`: static text, no network call. -/
def lucille_rules (resp : Except Err JsVal) : McpResult :=
  textContent rulesText

/-- The object literal serialized by `lucille_status`. -/
def statusJson (data : JsVal) : JsVal :=
  jsObjOfOpt [
    ("round", jsGetField data "round"),
    ("turn", jsGetField data "turn"),
    ("jackpot", some (.str (jsInterp (jsGetField data "jackpot") ++ " ETH"))),
    ("threshold", some (.str (jsInterp (jsGetField data "threshold") ++ "%"))),
    ("phase", jsGetField data "phase"),
    ("personality", optChain (jsGetField data "personality") "name"),
    ("personality_emoji", optChain (jsGetField data "personality") "emoji"),
    ("network", some (.str "base-sepolia"))]

/-- Tool 2, `lucille_status`: GET game-state. -/
def lucille_status (resp : Except Err JsVal) : McpResult :=
  match resp with
  | .error e => errorContent e
  | .ok data => textContent (jsonStringifyPretty (statusJson data))

/-- The object literal serialized by `lucille_personality`. -/
def personalityJson (data : JsVal) : JsVal :=
  jsObjOfOpt [
    ("name", jsGetField data "name"),
    ("emoji", jsGetField data "emoji"),
    ("mood", jsGetField data "mood"),
    ("description", jsGetField data "description"),
    ("tip", jsGetField data "tip"),
    ("likes", jsGetField data "likes"),
    ("hates", jsGetField data "hates"),
    ("visual_prompt", jsGetField data "visual_prompt")]

/-- Tool 3, `lucille_personality`: GET personality. -/
def lucille_personality (resp : Except Err JsVal) : McpResult :=
  match resp with
  | .error e => errorContent e
  | .ok data => textContent (jsonStringifyPretty (personalityJson data))

/-- The victory block appended by `lucille_play` when `data.won` is truthy. -/
def playWinBlock (player : String) (data : JsVal) : String :=
  "\n🏆 VICTORY!\n" ++
  "Prize: " ++
    (if jsTruthy (jsGetField data "prize_eth") then jsInterp (jsGetField data "prize_eth")
     else jsInterp (jsGetField data "jackpot")) ++
    " ETH → sent to " ++ player ++ "\n" ++
  (if jsTruthy (jsGetField data "nft_token_id") then
     "NFT: Token #" ++ jsInterp (jsGetField data "nft_token_id") ++ "\n"
   else "") ++
  (if jsTruthy (jsGetField data "nft_opensea_url") then
     "OpenSea: " ++ jsInterp (jsGetField data "nft_opensea_url") ++ "\n"
   else "") ++
  jsStrOrEmpty (jsGetField data "message_to_agent")

/-- Tool 4, `lucille_play`: POST play.  `message`, `tx_hash` and
`agent_name` only feed the request body, not the formatting. -/
def lucille_play (message player : String) (tx_hash agent_name : Option String)
    (resp : Except Err JsVal) : McpResult :=
  match resp with
  | .error e => errorContent e
  | .ok data =>
    textContent (
      "Score: " ++ jsInterp (jsGetField data "score") ++ "/" ++
        jsInterp (jsGetField data "threshold") ++ " (need " ++
        jsInterp (jsGetField data "threshold") ++ "% to win)\n" ++
      "Won: " ++ (if jsTruthy (jsGetField data "won") then "🎉 YES!" else "❌ No") ++ "\n" ++
      "Lucille says: \"" ++ jsInterp (jsGetField data "response") ++ "\"\n" ++
      "Personality: " ++ jsInterp (jsGetField data "personality") ++ " " ++
        jsInterp (jsGetField data "personality_emoji") ++ "\n" ++
      "Round " ++ jsInterp (jsGetField data "round") ++ ", Turn " ++
        jsInterp (jsGetField data "turn") ++ " (" ++
        jsInterp (jsGetField data "phase") ++ ")\n" ++
      "Jackpot: " ++ jsInterp (jsGetField data "jackpot") ++ " ETH\n" ++
      (if jsTruthy (jsGetField data "won") then playWinBlock player data else ""))

/-- The history group key: the personality, then " (Round ", then the
round, then ")". -/
def groupKey (a : JsVal) : String :=
  (if jsTruthy (jsGetField a "personality") then jsInterp (jsGetField a "personality")
   else "Unknown") ++
  " (Round " ++
  (if jsTruthy (jsGetField a "round") then jsInterp (jsGetField a "round") else "?") ++
  ")"

/-- One step of the history grouping: push `a` onto the group named `key`,
creating the group at the end when it is new (insertion order of a
JavaScript object with non-index keys). -/
def groupInsert (gs : List (String × List JsVal)) (key : String) (a : JsVal) :
    List (String × List JsVal) :=
  match gs with
  | [] => [(key, [a])]
  | (k, xs) :: rest =>
    if k == key then (k, xs ++ [a]) :: rest
    else (k, xs) :: groupInsert rest key a

/-- The grouped attempts of `lucille_history`. -/
def histGroups (attempts : List JsVal) : List (String × List JsVal) :=
  attempts.foldl (fun gs a => groupInsert gs (groupKey a) a) []

/-- Entries of a group (`grouped[key]`), the empty list when the key is
absent; keys are unique in `histGroups` output. -/
def lookupGroup : List (String × List JsVal) → String → List JsVal
  | [], _ => []
  | (k, xs) :: rest, key => if k == key then xs else lookupGroup rest key

/-- The truncated player address `player.slice(0, 6) + "..." +
player.slice(-4)` of a history entry. -/
def histAddr (p : String) : String :=
  jsSlice p 0 (some 6) ++ "..." ++ jsSlice p (-4) none

/-- The `.slice(0, 200)` truncation applied to messages and responses in
`lucille_history`. -/
def histTrunc (s : String) : String := jsSlice s 0 (some 200)

/-- Head line of one rendered history entry (index, badge, address, source
tag).  A truthy non-string `player` would make `.slice` throw in
JavaScript; the model slices its string form. -/
def itemHead (n : Nat) (a : JsVal) : String :=
  (toString n ++ ". [" ++
    (if jsTruthy (jsGetField a "won") then "🏆 WIN"
     else "Score: " ++ jsInterp (jsGetField a "score")) ++
    "] " ++
    (if jsTruthy (jsGetField a "player") then histAddr (jsInterp (jsGetField a "player"))
     else "???") ++
    (if jsStrEq (jsGetField a "source") "agent" then " 🤖" else "") ++
    "\n")

/-- Message line of one rendered history entry. -/
def itemMsgLine (a : JsVal) : String :=
  "   Message: \"" ++ histTrunc (jsStrOrEmpty (jsGetField a "message")) ++ "\"\n"

/-- Response line of one rendered history entry. -/
def itemRespLine (a : JsVal) : String :=
  "   Lucille: \"" ++ histTrunc (jsStrOrEmpty (jsGetField a "response")) ++ "\"\n\n"

/-- One rendered history entry: the three `result +=` statements of the
source. -/
def itemLine (n : Nat) (a : JsVal) : String :=
  itemHead n a ++ itemMsgLine a ++ itemRespLine a

/-- The `items.forEach((a, i) => ...)` loop: entry `i` is rendered with the
1-based index `i + 1`. -/
def renderItems : Nat → List JsVal → String
  | _, [] => ""
  | i, a :: rest => itemLine (i + 1) a ++ renderItems (i + 1) rest

/-- The attempts list `Array.isArray(data) ? data : data.attempts || []`.
A truthy non-array `data.attempts` would make `forEach` throw in
JavaScript and is out of the model. -/
def attemptsOf (data : JsVal) : List JsVal :=
  match data with
  | .arr xs => xs
  | _ =>
    match jsGetField data "attempts" with
    | some (.arr xs) => xs
    | _ => []

/-- The upstream query string built by `lucille_history`: falsy `round`
(0 or absent) and falsy `player` (empty or absent) are omitted. -/
def historyQuery (limit : Int) (round : Option Int) (player : Option String) : String :=
  let q := "/api/history?limit=" ++ toString limit
  let q := if optIntTruthy round then q ++ "&round=" ++ optIntStr round else q
  if optStrTruthy player then q ++ "&player=" ++ optStrVal player else q

/-- The header of `lucille_history` output: round filter, then player
filter, then the recent-attempts default. -/
def historyHeader (round : Option Int) (player : Option String) (count : Nat) : String :=
  if optIntTruthy round then
    "=== Attempts for Round " ++ optIntStr round ++ " ===\n\n"
  else if optStrTruthy player then
    "=== Attempts by " ++ jsSlice (optStrVal player) 0 (some 10) ++ "... ===\n\n"
  else
    "=== Recent " ++ toString count ++ " Attempts ===\n\n"

/-- Tool 5, `lucille_history`: GET history with filters, grouped output. -/
def lucille_history (limit : Int) (round : Option Int) (player : Option String)
    (resp : Except Err JsVal) : McpResult :=
  match resp with
  | .error e => errorContent e
  | .ok data =>
    let attempts := attemptsOf data
    if attempts.length == 0 then
      textContent "No attempts found for the given filters."
    else
      textContent (jsTrim (
        historyHeader round player attempts.length ++
        String.join ((histGroups attempts).map
          (fun g => "--- " ++ g.1 ++ " ---\n" ++ renderItems 0 g.2))))

/-- The rounds list `Array.isArray(data) ? data : data.history || []`. -/
def historyRowsOf (data : JsVal) : List JsVal :=
  match data with
  | .arr xs => xs
  | _ =>
    match jsGetField data "history" with
    | some (.arr xs) => xs
    | _ => []

/-- The winner fragment `h.victory.winner?.slice(0, 10)` as interpolated: a
missing or `null` winner interpolates as `undefined`; a non-string winner
would make `.slice` throw in JavaScript and is modelled on its string
form. -/
def winnerSliced (victory : Option JsVal) : String :=
  match optChain victory "winner" with
  | none => "undefined"
  | some .null => "undefined"
  | some (.str w) => jsSlice w 0 (some 10)
  | some v => jsSlice (jsToString v) 0 (some 10)

/-- The victory text of one leaderboard line. -/
def leadWinnerText (victory : Option JsVal) : String :=
  ("🏆 Won by " ++ winnerSliced victory ++ " (score: ") ++
    (jsInterp (optChain victory "score") ++ ", jackpot: " ++
     jsInterp (optChain victory "jackpot") ++ " ETH)")

/-- One leaderboard line (`i` is the 0-based map index; a falsy round
renders as `i + 1`). -/
def leadLine (i : Nat) (h : JsVal) : String :=
  "Round " ++
    (if jsTruthy (jsGetField h "round") then jsInterp (jsGetField h "round")
     else toString (i + 1)) ++
    ": \"" ++ jsInterp (jsGetField h "name") ++ "\" " ++
    (if jsTruthy (jsGetField h "emoji") then jsInterp (jsGetField h "emoji") else "") ++
    " — " ++
    (if jsTruthy (jsGetField h "victory") then leadWinnerText (jsGetField h "victory")
     else "No winner yet")

/-- The `history.map((h, i) => ...)` loop of the leaderboard. -/
def leadLines : Nat → List JsVal → List String
  | _, [] => []
  | i, h :: rest => leadLine i h :: leadLines (i + 1) rest

/-- Tool 6, `lucille_leaderboard`: GET personality-history. -/
def lucille_leaderboard (resp : Except Err JsVal) : McpResult :=
  match resp with
  | .error e => errorContent e
  | .ok data =>
    textContent ("Past rounds:\n" ++
      String.intercalate "\n" (leadLines 0 (historyRowsOf data)))

/-- An array-valued field, `[]` otherwise.  The source guards its loops
with `data.<key>?.length > 0`; a truthy non-array would make `forEach`
throw in JavaScript and is out of the model. -/
def arrayField (data : JsVal) (key : String) : List JsVal :=
  match jsGetField data key with
  | some (.arr xs) => xs
  | _ => []

/-- One NFT line of `lucille_my_stats`. -/
def nftLine (nft : JsVal) : String :=
  "  - Round " ++ jsInterp (jsGetField nft "round") ++ ": Score " ++
    jsInterp (jsGetField nft "score") ++ " (" ++
    jsInterp (jsGetField nft "personality") ++ ")" ++
  (if jsTruthy (jsGetField nft "opensea_url") then
     " — " ++ jsInterp (jsGetField nft "opensea_url")
   else "") ++ "\n"

/-- One recent-attempt line of `lucille_my_stats`. -/
def recentLine (a : JsVal) : String :=
  "  - " ++ (if jsTruthy (jsGetField a "won") then "🏆" else "❌") ++
    " Score: " ++ jsInterp (jsGetField a "score") ++ " — \"" ++
    jsInterp (jsGetField a "message_preview") ++ "...\" (" ++
    jsInterp (jsGetField a "personality") ++ ")\n"

/-- Tool 7, `lucille_my_stats`: GET agent stats. -/
def lucille_my_stats (player : String) (resp : Except Err JsVal) : McpResult :=
  match resp with
  | .error e => errorContent e
  | .ok data =>
    textContent (
      "Player: " ++ player ++ "\n" ++
      "Total attempts: " ++ jsInterp (jsGetField data "total_attempts") ++ "\n" ++
      "Total wins: " ++ jsInterp (jsGetField data "total_wins") ++ "\n" ++
      "Best score: " ++ jsInterp (jsGetField data "best_score") ++ "\n" ++
      "Average score: " ++ jsInterp (jsGetField data "average_score") ++ "\n" ++
      (if (arrayField data "nfts").length > 0 then
         "\nNFTs earned:\n" ++ String.join ((arrayField data "nfts").map nftLine)
       else "") ++
      (if (arrayField data "recent_attempts").length > 0 then
         "\nRecent attempts:\n" ++
           String.join ((arrayField data "recent_attempts").map recentLine)
       else ""))

/-- The advice loop of `lucille_round_strategy`. -/
def adviceLines (tips : List JsVal) : String :=
  String.join (tips.map (fun tip => "  💡 " ++ jsToString tip ++ "\n"))

/-- Tool 8, `lucille_round_strategy`: GET strategy. -/
def lucille_round_strategy (resp : Except Err JsVal) : McpResult :=
  match resp with
  | .error e => errorContent e
  | .ok data =>
    textContent (
      "=== Strategy for Round " ++ jsInterp (jsGetField data "round") ++ " ===\n\n" ++
      "Turn: " ++ jsInterp (jsGetField data "turn") ++ " | Phase: " ++
        jsInterp (jsGetField data "phase") ++ " | Threshold: " ++
        jsInterp (jsGetField data "threshold") ++ "%\n" ++
      "Jackpot: " ++ jsInterp (jsGetField data "jackpot") ++ " ETH\n\n" ++
      "Personality: \"" ++ jsInterp (optChain (jsGetField data "personality") "name") ++
        "\" (" ++ jsInterp (optChain (jsGetField data "personality") "mood") ++ ")\n" ++
      (if (arrayField data "advice").length > 0 then
         "\nAdvice:\n" ++ adviceLines (arrayField data "advice")
       else "") ++
      "\nCost: " ++ jsInterp (optChain (jsGetField data "cost_info") "cost_per_play") ++
        " (" ++ jsInterp (optChain (jsGetField data "cost_info") "network") ++ ")\n")

/-- The character class `[a-fA-F0-9]` of the wallet regex. -/
def isHexChar (c : Char) : Bool :=
  decide ((48 ≤ c.toNat ∧ c.toNat ≤ 57) ∨ (97 ≤ c.toNat ∧ c.toNat ≤ 102) ∨
    (65 ≤ c.toNat ∧ c.toNat ≤ 70))

/-- The anchored regex test `/^0x[a-fA-F0-9]{40}$/.test(s)`: the whole
string is the two-character prefix followed by forty class characters. -/
def addressRegexTest (s : String) : Bool :=
  match s.data with
  | c1 :: c2 :: rest => c1 == '0' && c2 == 'x' && rest.length == 40 && rest.all isHexChar
  | _ => false

/-- Tool 9, `lucille_verify_wallet`: pure local validation, no network
call. -/
def lucille_verify_wallet (address : String) (resp : Except Err JsVal) : McpResult :=
  let isValid := addressRegexTest address
  if !isValid then
    textContent ("❌ Invalid wallet address: \"" ++ address ++
      "\"\nMust be a 42-character hex address starting with 0x (e.g. 0x1234...abcd)")
  else
    textContent ("✅ Valid Base wallet address: " ++ address ++
      "\nYou can use this address to play. If you win, ETH and NFTs will be sent here.\nNetwork: Base Sepolia (testnet)\nNeed testnet ETH? Use lucille_claim_eth to get some.")

/-- Tool 10, `lucille_claim_eth`: POST drip, with three recognised states
and a verbatim JSON echo otherwise. -/
def lucille_claim_eth (address : String) (resp : Except Err JsVal) : McpResult :=
  match resp with
  | .error e => errorContent e
  | .ok data =>
    if jsStrEq (jsGetField data "status") "has_balance" then
      textContent ("✅ You already have enough ETH " ++
        ("(" ++ jsInterp (jsGetField data "balance") ++ " ETH)") ++
        ". No drip needed.\nYou\x27re ready to play — use lucille_contract_info to get the contract details.")
    else if jsStrEq (jsGetField data "status") "cooldown" then
      textContent ("⏳ " ++
        ("Cooldown active. " ++ jsInterp (jsGetField data "message") ++ ". ") ++
        "You can claim again later.")
    else if jsStrEq (jsGetField data "status") "claimed" then
      textContent ("✅ " ++
        ("Sent " ++ jsInterp (jsGetField data "amount") ++ " ETH to " ++ address) ++
        "\n" ++ ("TX: " ++ jsInterp (jsGetField data "txHash")) ++
        "\nYou\x27re ready to play! Use lucille_contract_info to get contract details, then sign submitAttempt() on-chain.")
    else
      textContent ("Result: " ++ jsonStringify data)

/-- The hardcoded contract address of `lucille_contract_info`. -/
def contractAddress : String := "0xbBaBb6ced6A179A79D34Dbc4918028a9CaFbD8F8"

/-- The hardcoded chain id of `lucille_contract_info`. -/
def chainId : Nat := 84532

/-- The hardcoded RPC URL of `lucille_contract_info`. -/
def rpcUrl : String := "https://sepolia.base.org"

/-- The ABI fragment serialized by `lucille_contract_info`. -/
def contractAbi : JsVal :=
  .arr [
    .obj [("name", .str "submitAttempt"), ("type", .str "function"),
          ("stateMutability", .str "payable"),
          ("inputs", .arr [.obj [("name", .str "_messageHash"), ("type", .str "bytes32")]]),
          ("outputs", .arr [.obj [("name", .str "turn"), ("type", .str "uint256")]])],
    .obj [("name", .str "getRoundState"), ("type", .str "function"),
          ("stateMutability", .str "view"),
          ("inputs", .arr []),
          ("outputs", .arr [
            .obj [("name", .str "_roundId"), ("type", .str "uint256")],
            .obj [("name", .str "_currentTurn"), ("type", .str "uint256")],
            .obj [("name", .str "_pendingAttempts"), ("type", .str "uint256")],
            .obj [("name", .str "_jackpot"), ("type", .str "uint256")],
            .obj [("name", .str "_currentCost"), ("type", .str "uint256")],
            .obj [("name", .str "_active"), ("type", .str "bool")]])],
    .obj [("name", .str "getCurrentCost"), ("type", .str "function"),
          ("stateMutability", .str "view"),
          ("inputs", .arr []),
          ("outputs", .arr [.obj [("name", .str ""), ("type", .str "uint256")]])]]

/-- Output of `lucille_contract_info` up to the cost line. -/
def contractInfoHeader : String :=
  "=== Lucille Protocol — Contract Info ===\n\n" ++
  "Contract: " ++ contractAddress ++ "\n" ++
  "Chain: Base Sepolia (" ++ toString chainId ++ ")\n" ++
  "RPC: " ++ rpcUrl ++ "\n"

/-- Output of `lucille_contract_info` before the interpolated cost. -/
def contractInfoPre : String :=
  contractInfoHeader ++ "Current cost per attempt: "

/-- Output of `lucille_contract_info` after the cost line. -/
def contractInfoTail : String :=
  "=== How to Play On-Chain ===\n\n" ++
  "1. Hash your message: keccak256(toBytes(\"your message\"))\n" ++
  "2. Call submitAttempt(messageHash) with value = currentCost\n" ++
  "3. After tx confirms, call lucille_play with your message + tx_hash\n\n" ++
  "=== ABI (only what you need) ===\n\n" ++
  "submitAttempt(bytes32 _messageHash) payable → returns uint256 turn\n" ++
  "getRoundState() view → returns (uint256 roundId, uint256 currentTurn, uint256 pendingAttempts, uint256 jackpot, uint256 currentCost, bool active)\n" ++
  "getCurrentCost() view → returns uint256\n" ++
  "getPlayerStats(address) view → returns (uint256 attemptCount, uint256 wins)\n\n" ++
  "=== ABI JSON (for ethers.js / viem) ===\n\n" ++
  jsonStringify contractAbi ++ "\n\n" ++
  "=== Example (ethers.js v6) ===\n\n" ++
  "import \x7b ethers \x7d from \"ethers\";\n" ++
  "const provider = new ethers.JsonRpcProvider(\"" ++ rpcUrl ++ "\");\n" ++
  "const wallet = new ethers.Wallet(PRIVATE_KEY, provider);\n" ++
  "const contract = new ethers.Contract(\"" ++ contractAddress ++ "\", ABI, wallet);\n" ++
  "const messageHash = ethers.keccak256(ethers.toUtf8Bytes(\"your message\"));\n" ++
  "const cost = await contract.getCurrentCost();\n" ++
  "const tx = await contract.submitAttempt(messageHash, \x7b value: cost \x7d);\n" ++
  "await tx.wait();\n\n" ++
  "=== Example (viem) ===\n\n" ++
  "import \x7b keccak256, toBytes \x7d from \"viem\";\n" ++
  "const messageHash = keccak256(toBytes(\"your message\"));\n" ++
  "// Use your wallet client to call submitAttempt(messageHash) with value: currentCost\n"

/-- Output of `lucille_contract_info` after the interpolated cost. -/
def contractInfoPost : String := " wei\n\n" ++ contractInfoTail

/-- Tool 11, `lucille_contract_info`: GET game-state merged with the static
contract metadata; `data.baseCost || "1"` and `data.currentCost ||
baseCost` choose the displayed cost. -/
def lucille_contract_info (resp : Except Err JsVal) : McpResult :=
  match resp with
  | .error e => errorContent e
  | .ok data =>
    let baseCost :=
      if jsTruthy (jsGetField data "baseCost") then jsInterp (jsGetField data "baseCost")
      else "1"
    let currentCost :=
      if jsTruthy (jsGetField data "currentCost") then jsInterp (jsGetField data "currentCost")
      else baseCost
    textContent (contractInfoPre ++ currentCost ++ contractInfoPost)

/-! ### Specification-side definitions

These render the wording of the specification and of the claims, to be
compared with the definitions taken from the source. -/

/-- Containment of one string in another (the needle occurs contiguously in
the haystack). -/
def strContains (needle hay : String) : Prop := needle.data <:+: hay.data

instance strContainsDecidable (needle hay : String) : Decidable (strContains needle hay) :=
  List.decidableInfix needle.data hay.data

/-- The case-insensitive hexadecimal digits, as enumerated characters. -/
def specHexDigits : List Char :=
  ['0', '1', '2', '3', '4'] ++ ['5', '6', '7', '8', '9'] ++
    ['a', 'b', 'c'] ++ ['d', 'e', 'f'] ++
    ['A', 'B', 'C'] ++ ['D', 'E', 'F']

/-- Specification wording of a valid wallet address: exactly 42 characters,
the two-character prefix `0x`, then forty case-insensitive hex digits (no
surrounding whitespace, since every character is accounted for). -/
def spec_isValidAddress (s : String) : Prop :=
  s.data.length = 42 ∧ s.data.take 2 = ['0', 'x'] ∧
    ∀ c ∈ s.data.drop 2, c ∈ specHexDigits

instance spec_isValidAddressDec (s : String) : Decidable (spec_isValidAddress s) := by
  unfold spec_isValidAddress
  infer_instance

/-- First-seen deduplication: the distinct keys in order of first
occurrence, given the set of keys already seen. -/
def firstSeenAux (seen : List String) : List String → List String
  | [] => []
  | k :: ks =>
    if k ∈ seen then firstSeenAux seen ks
    else k :: firstSeenAux (k :: seen) ks

/-- The distinct keys of a list in order of first occurrence. -/
def firstSeen (keys : List String) : List String := firstSeenAux [] keys

/-! ### Helper lemmas -/

theorem str_data_append (a b : String) : (a ++ b).data = a.data ++ b.data := rfl

theorem strContains_self (x : String) : strContains x x := List.infix_rfl

theorem strContains_left {x a : String} (b : String) (h : strContains x a) :
    strContains x (a ++ b) := by
  refine List.IsInfix.trans h ?_
  show a.data <:+: (a ++ b).data
  rw [str_data_append]
  exact ⟨[], b.data, by simp⟩

theorem strContains_right {x b : String} (a : String) (h : strContains x b) :
    strContains x (a ++ b) := by
  refine List.IsInfix.trans h ?_
  show b.data <:+: (a ++ b).data
  rw [str_data_append]
  exact ⟨a.data, [], by simp⟩

theorem string_mk_data (s : String) : String.mk s.data = s := by
  cases s
  rfl

theorem string_length_eq_data (s : String) : s.length = s.data.length := rfl

theorem jsSlice_take (s : String) (k : Int) (hk : 0 ≤ k) :
    jsSlice s 0 (some k) = String.mk (s.data.take k.toNat) := by
  have h1 : ¬ ((0 : Int) < 0) := by omega
  have h2 : ¬ (k < 0) := by omega
  simp only [jsSlice, h1, h2, if_false]
  have h3 : min (0 : Int) (s.length : Int) = 0 := min_eq_left (Int.ofNat_nonneg _)
  rw [h3]
  simp only [Int.toNat_zero, List.drop_zero, sub_zero]
  congr 1
  have h4 : (min k (s.length : Int)).toNat = min k.toNat s.data.length := by
    rw [string_length_eq_data] at *
    omega
  rw [h4, List.take_eq_take]
  omega

theorem jsSlice_lastFour (s : String) :
    jsSlice s (-4) none = String.mk (s.data.drop (s.data.length - 4)) := by
  have h1 : ((-4 : Int) < 0) := by omega
  simp only [jsSlice, h1, if_true]
  have ha : (max ((s.length : Int) + (-4)) 0).toNat = s.data.length - 4 := by
    rw [string_length_eq_data] at *
    omega
  rw [ha]
  congr 1
  have hb : (((s.length : Int)) - max ((s.length : Int) + (-4)) 0).toNat =
      s.data.length - (s.data.length - 4) := by
    rw [string_length_eq_data] at *
    omega
  rw [hb]
  refine List.take_of_length_le ?_
  rw [List.length_drop]

theorem isHexChar_iff_mem (c : Char) : isHexChar c = true ↔ c ∈ specHexDigits := by
  constructor
  · intro h
    unfold isHexChar at h
    rw [decide_eq_true_iff] at h
    rw [← Char.ofNat_toNat c]
    set t := c.toNat with ht
    rcases h with ⟨h1, h2⟩ | ⟨h1, h2⟩ | ⟨h1, h2⟩ <;>
      (interval_cases t <;> decide)
  · intro h
    fin_cases h <;> decide

theorem addressRegexTest_iff (s : String) :
    addressRegexTest s = true ↔ spec_isValidAddress s := by
  unfold addressRegexTest spec_isValidAddress
  match s.data with
  | [] => simp
  | [c] => simp
  | c1 :: c2 :: rest =>
    simp only [Bool.and_eq_true, beq_iff_eq, List.all_eq_true, isHexChar_iff_mem,
      List.length_cons, List.take_succ_cons, List.take_zero, List.drop_succ_cons,
      List.drop_zero, List.cons.injEq, and_true]
    constructor
    · rintro ⟨⟨⟨e1, e2⟩, e3⟩, e4⟩
      exact ⟨by omega, ⟨e1, e2⟩, e4⟩
    · rintro ⟨e1, ⟨e2, e3⟩, e4⟩
      exact ⟨⟨⟨e2, e3⟩, by omega⟩, e4⟩

theorem groupInsert_keys (gs : List (String × List JsVal)) (key : String) (a : JsVal) :
    (groupInsert gs key a).map Prod.fst =
      if key ∈ gs.map Prod.fst then gs.map Prod.fst
      else gs.map Prod.fst ++ [key] := by
  induction gs with
  | nil => simp [groupInsert]
  | cons p rest ih =>
    obtain ⟨k, xs⟩ := p
    by_cases hk : k = key
    · subst hk
      simp [groupInsert]
    · have hk2 : (k == key) = false := by simp [hk]
      simp only [groupInsert, hk2, Bool.false_eq_true, if_false, List.map_cons, ih,
        List.mem_cons]
      by_cases hmem : key ∈ rest.map Prod.fst
      · simp [hmem, hk, Ne.symm hk]
      · simp [hmem, hk, Ne.symm hk]

theorem lookupGroup_groupInsert (gs : List (String × List JsVal)) (key k' : String)
    (a : JsVal) :
    lookupGroup (groupInsert gs key a) k' =
      lookupGroup gs k' ++ if key = k' then [a] else [] := by
  induction gs with
  | nil =>
    by_cases h : key = k' <;> simp [groupInsert, lookupGroup, h]
  | cons p rest ih =>
    obtain ⟨k, xs⟩ := p
    by_cases h1 : k = key
    · subst h1
      by_cases h2 : k = k'
      · subst h2
        simp [groupInsert, lookupGroup]
      · have h2b : (k == k') = false := by simp [h2]
        simp [groupInsert, lookupGroup, h2b, h2]
    · have h1b : (k == key) = false := by simp [h1]
      by_cases h2 : k = k'
      · subst h2
        have : key ≠ k := fun hh => h1 hh.symm
        simp [groupInsert, lookupGroup, h1b, this]
      · have h2b : (k == k') = false := by simp [h2]
        simp [groupInsert, lookupGroup, h1b, h2b, ih]

theorem histGroups_go_contents (as : List JsVal) :
    ∀ (gs : List (String × List JsVal)) (k : String),
      lookupGroup (as.foldl (fun gs a => groupInsert gs (groupKey a) a) gs) k =
        lookupGroup gs k ++ as.filter (fun a => groupKey a == k) := by
  induction as with
  | nil => simp
  | cons a rest ih =>
    intro gs k
    simp only [List.foldl_cons, List.filter_cons]
    rw [ih, lookupGroup_groupInsert]
    by_cases h : groupKey a = k
    · simp [h]
    · have hb : (groupKey a == k) = false := by simp [h]
      simp [h, hb]

theorem firstSeenAux_congr {s₁ s₂ : List String} (h : ∀ x, x ∈ s₁ ↔ x ∈ s₂) :
    ∀ l : List String, firstSeenAux s₁ l = firstSeenAux s₂ l := by
  intro l
  induction l generalizing s₁ s₂ with
  | nil => rfl
  | cons k ks ih =>
    by_cases hk : k ∈ s₁
    · have hk2 : k ∈ s₂ := (h k).mp hk
      simp only [firstSeenAux, hk, hk2, if_true]
      exact ih h
    · have hk2 : k ∉ s₂ := fun hx => hk ((h k).mpr hx)
      simp only [firstSeenAux, hk, hk2, if_false]
      refine congrArg _ (ih ?_)
      intro x
      simp only [List.mem_cons]
      rw [h x]

theorem histGroups_go_keys (as : List JsVal) :
    ∀ gs : List (String × List JsVal),
      ((as.foldl (fun gs a => groupInsert gs (groupKey a) a) gs).map Prod.fst) =
        gs.map Prod.fst ++ firstSeenAux (gs.map Prod.fst) (as.map groupKey) := by
  induction as with
  | nil => simp [firstSeenAux]
  | cons a rest ih =>
    intro gs
    simp only [List.foldl_cons, List.map_cons]
    rw [ih, groupInsert_keys]
    by_cases h : groupKey a ∈ gs.map Prod.fst
    · simp only [h, if_true, firstSeenAux]
    · simp only [h, if_false, firstSeenAux]
      rw [firstSeenAux_congr (show ∀ x : String,
        x ∈ gs.map Prod.fst ++ [groupKey a] ↔ x ∈ groupKey a :: gs.map Prod.fst from
        by intro x; simp [or_comm])]
      simp

theorem histGroups_keys (as : List JsVal) :
    (histGroups as).map Prod.fst = firstSeen (as.map groupKey) := by
  have h := histGroups_go_keys as []
  simpa [histGroups, firstSeen] using h

theorem histGroups_contents (as : List JsVal) (k : String) :
    lookupGroup (histGroups as) k = as.filter (fun a => groupKey a == k) := by
  have h := histGroups_go_contents as [] k
  simpa [histGroups, lookupGroup] using h

/-! ### Claims -/

/-- A result consisting of one formatted text block. -/
def isTextResult (r : McpResult) : Prop := ∃ s, r = textContent s

theorem rateLimited429_isText (body : String) : isTextResult (rateLimited429 body) := by
  unfold rateLimited429
  split
  · exact ⟨_, rfl⟩
  · exact ⟨_, rfl⟩
  · exact ⟨_, rfl⟩

theorem errorContent_isText (e : Err) : isTextResult (errorContent e) := by
  cases e with
  | apiError st body =>
    simp only [errorContent]
    split_ifs <;> first
      | exact rateLimited429_isText body
      | exact ⟨_, rfl⟩
  | jsError msg =>
    simp only [errorContent]
    split_ifs
    · exact ⟨_, rfl⟩
    · exact ⟨_, rfl⟩
  | nonError => exact ⟨_, rfl⟩

/-- C1: every HTTP-calling tool (status, personality, play, history,
leaderboard, my_stats, round_strategy, claim_eth, contract_info) maps any
upstream failure through `errorContent` and returns a formatted text
result on every outcome — failures are never surfaced past the tool
boundary, and every branch of the classifier terminates in a text
result. -/
theorem c1_failures_never_propagate :
    (∀ e : Err, isTextResult (errorContent e)) ∧
    (∀ e : Err,
      lucille_status (.error e) = errorContent e ∧
      lucille_personality (.error e) = errorContent e ∧
      (∀ m p t a, lucille_play m p t a (.error e) = errorContent e) ∧
      (∀ lim rd pl, lucille_history lim rd pl (.error e) = errorContent e) ∧
      lucille_leaderboard (.error e) = errorContent e ∧
      (∀ p, lucille_my_stats p (.error e) = errorContent e) ∧
      lucille_round_strategy (.error e) = errorContent e ∧
      (∀ a, lucille_claim_eth a (.error e) = errorContent e) ∧
      lucille_contract_info (.error e) = errorContent e) ∧
    (∀ resp : Except Err JsVal,
      isTextResult (lucille_status resp) ∧
      isTextResult (lucille_personality resp) ∧
      (∀ m p t a, isTextResult (lucille_play m p t a resp)) ∧
      (∀ lim rd pl, isTextResult (lucille_history lim rd pl resp)) ∧
      isTextResult (lucille_leaderboard resp) ∧
      (∀ p, isTextResult (lucille_my_stats p resp)) ∧
      isTextResult (lucille_round_strategy resp) ∧
      (∀ a, isTextResult (lucille_claim_eth a resp)) ∧
      isTextResult (lucille_contract_info resp)) := by
  refine ⟨errorContent_isText, ?_, ?_⟩
  · intro e
    exact ⟨rfl, rfl, fun _ _ _ _ => rfl, fun _ _ _ => rfl, rfl, fun _ => rfl, rfl,
      fun _ => rfl, rfl⟩
  · intro resp
    cases resp with
    | error e =>
      exact ⟨errorContent_isText e, errorContent_isText e,
        fun _ _ _ _ => errorContent_isText e, fun _ _ _ => errorContent_isText e,
        errorContent_isText e, fun _ => errorContent_isText e, errorContent_isText e,
        fun _ => errorContent_isText e, errorContent_isText e⟩
    | ok data =>
      refine ⟨⟨_, rfl⟩, ⟨_, rfl⟩, fun _ _ _ _ => ⟨_, rfl⟩, fun lim rd pl => ?_,
        ⟨_, rfl⟩, fun _ => ⟨_, rfl⟩, ⟨_, rfl⟩, fun a => ?_, ⟨_, rfl⟩⟩
      · simp only [lucille_history]
        split_ifs
        · exact ⟨_, rfl⟩
        · exact ⟨_, rfl⟩
      · simp only [lucille_claim_eth]
        split_ifs
        · exact ⟨_, rfl⟩
        · exact ⟨_, rfl⟩
        · exact ⟨_, rfl⟩
        · exact ⟨_, rfl⟩

/-- C3: `lucille_verify_wallet` reports valid exactly on strings that are
`0x` followed by forty case-insensitive hex digits (nothing more); any
other input gets the invalid message, which echoes the input unchanged;
the result never depends on any network outcome. -/
theorem c3_verify_wallet (s : String) (r₁ r₂ : Except Err JsVal) :
    (addressRegexTest s = true ↔ spec_isValidAddress s) ∧
    (spec_isValidAddress s →
      lucille_verify_wallet s r₁ = textContent
        ("✅ Valid Base wallet address: " ++ s ++
         "\nYou can use this address to play. If you win, ETH and NFTs will be sent here.\nNetwork: Base Sepolia (testnet)\nNeed testnet ETH? Use lucille_claim_eth to get some.")) ∧
    (¬ spec_isValidAddress s →
      lucille_verify_wallet s r₁ = textContent
        ("❌ Invalid wallet address: \"" ++ s ++
         "\"\nMust be a 42-character hex address starting with 0x (e.g. 0x1234...abcd)") ∧
      strContains s (resultText (lucille_verify_wallet s r₁))) ∧
    lucille_verify_wallet s r₁ = lucille_verify_wallet s r₂ := by
  refine ⟨addressRegexTest_iff s, ?_, ?_, rfl⟩
  · intro h
    have hv : addressRegexTest s = true := (addressRegexTest_iff s).mpr h
    simp [lucille_verify_wallet, hv]
  · intro h
    have hv : addressRegexTest s = false := by
      rcases Bool.eq_false_or_eq_true (addressRegexTest s) with ht | hf
      · exact absurd ((addressRegexTest_iff s).mp ht) h
      · exact hf
    have he : lucille_verify_wallet s r₁ = textContent
        ("❌ Invalid wallet address: \"" ++ s ++
         "\"\nMust be a 42-character hex address starting with 0x (e.g. 0x1234...abcd)") := by
      simp [lucille_verify_wallet, hv]
    refine ⟨he, ?_⟩
    rw [he]
    show strContains s (("❌ Invalid wallet address: \"" ++ s) ++
      "\"\nMust be a 42-character hex address starting with 0x (e.g. 0x1234...abcd)")
    exact strContains_left _ (strContains_right _ (strContains_self s))

/-- C3 witness: a valid fixture address is accepted and an invalid input is
rejected with the input echoed. -/
theorem c3_verify_wallet_witness :
    spec_isValidAddress "0x1234567890abcdef1234567890abcdef12345678" ∧
    lucille_verify_wallet "0x1234567890abcdef1234567890abcdef12345678" (.error .nonError) =
      textContent
        ("✅ Valid Base wallet address: " ++ "0x1234567890abcdef1234567890abcdef12345678" ++
         "\nYou can use this address to play. If you win, ETH and NFTs will be sent here.\nNetwork: Base Sepolia (testnet)\nNeed testnet ETH? Use lucille_claim_eth to get some.") ∧
    strContains "nope" (resultText (lucille_verify_wallet "nope" (.error .nonError))) :=
  ⟨by decide,
   (c3_verify_wallet "0x1234567890abcdef1234567890abcdef12345678" (.error .nonError)
      (.error .nonError)).2.1 (by decide),
   ((c3_verify_wallet "nope" (.error .nonError) (.error .nonError)).2.2.1 (by decide)).2⟩

/-- C9: `lucille_rules` and `lucille_verify_wallet` are pure and
deterministic — their output is a function of the declared input alone,
identical across any two network environments (no network call is made),
and `lucille_rules` is the constant `rulesText`. -/
theorem c9_rules_verify_pure :
    (∀ r₁ r₂ : Except Err JsVal, lucille_rules r₁ = lucille_rules r₂) ∧
    (∀ (a : String) (r₁ r₂ : Except Err JsVal),
      lucille_verify_wallet a r₁ = lucille_verify_wallet a r₂) ∧
    (∀ r : Except Err JsVal, lucille_rules r = textContent rulesText) :=
  ⟨fun _ _ => rfl, fun _ _ _ => rfl, fun _ => rfl⟩

/-- C10: a `round` of 0 or an empty `player` is falsy, so the query
parameter is omitted and the corresponding header is not used — the call
behaves exactly as if the filter had not been supplied. -/
theorem c10_falsy_filters_ignored (lim : Int) (rd : Option Int) (pl : Option String)
    (resp : Except Err JsVal) :
    lucille_history lim (some 0) pl resp = lucille_history lim none pl resp ∧
    lucille_history lim rd (some "") resp = lucille_history lim rd none resp ∧
    historyQuery lim (some 0) pl = historyQuery lim none pl ∧
    historyQuery lim rd (some "") = historyQuery lim rd none := by
  refine ⟨?_, ?_, ?_, ?_⟩
  · cases resp <;> rfl
  · cases resp <;> rfl
  · rfl
  · rfl

theorem jsInterp_num (n : Int) : jsInterp (some (.num n)) = toString n := rfl

theorem jsInterp_str (s : String) : jsInterp (some (.str s)) = s := rfl

theorem resultText_textContent (s : String) : resultText (textContent s) = s := by
  cases s
  rfl

/-- The wait value displayed by the 429 branch, as a function of the parse
outcome (the two fallback branches print the same fixed 60). -/
def rlWaitStr (p : Option JsVal) : String :=
  match p with
  | none => "60"
  | some .null => "60"
  | some parsed =>
    if jsTruthy (jsGetField parsed "retry_after_seconds") then
      jsInterp (jsGetField parsed "retry_after_seconds")
    else "60"

theorem rateLimited429_eq (body : String) :
    rateLimited429 body = textContent ("⏳ Rate limited — wait " ++
      rlWaitStr (parseJson body) ++
      " seconds and try again.\nLimit: 3 plays/min per wallet, 60 reads/min.") := by
  unfold rateLimited429 rlWaitStr
  rcases parseJson body with _ | v
  · rfl
  · cases v <;> rfl

set_option maxRecDepth 40000 in
/-- C2: on an HTTP 429, a JSON body binding `retry_after_seconds` to `N`
makes the guidance text contain `N`; an unparsable body, or one without
that field, falls back to the default 60; and the text always states the
fixed limits (3 plays/min, 60 reads/min). -/
theorem c2_rate_limited_429 (body : String) (v : JsVal) (N : Int) :
    (parseJson body = some v →
      jsGetField v "retry_after_seconds" = some (.num N) →
      strContains (toString N) (resultText (errorContent (.apiError 429 body)))) ∧
    (parseJson body = none →
      strContains "wait 60 seconds" (resultText (errorContent (.apiError 429 body)))) ∧
    (parseJson body = some v →
      jsGetField v "retry_after_seconds" = none →
      strContains "wait 60 seconds" (resultText (errorContent (.apiError 429 body)))) ∧
    strContains "3 plays/min" (resultText (errorContent (.apiError 429 body))) ∧
    strContains "60 reads/min" (resultText (errorContent (.apiError 429 body))) := by
  have he : errorContent (.apiError 429 body) = rateLimited429 body := by
    simp [errorContent]
  rw [he, rateLimited429_eq, resultText_textContent]
  refine ⟨?_, ?_, ?_, ?_, ?_⟩
  · intro hp hf
    rw [hp]
    cases v with
    | obj fields =>
      simp only [rlWaitStr]
      rw [hf]
      by_cases hN : N = 0
      · subst hN
        simp only [jsTruthy]
        decide
      · have ht : jsTruthy (some (.num N)) = true := by
          simp [jsTruthy, hN]
        rw [ht, if_pos rfl, jsInterp_num]
        exact strContains_left _ (strContains_right _ (strContains_self _))
    | null => simp [jsGetField] at hf
    | bool b => simp [jsGetField] at hf
    | num n => simp [jsGetField] at hf
    | str t => simp [jsGetField] at hf
    | arr xs => simp [jsGetField] at hf
  · intro hp
    rw [hp]
    decide
  · intro hp hf
    rw [hp]
    cases v with
    | obj fields =>
      simp only [rlWaitStr]
      rw [hf]
      simp only [jsTruthy]
      decide
    | null => decide
    | bool b =>
      simp only [rlWaitStr, jsGetField, jsTruthy]
      decide
    | num n =>
      simp only [rlWaitStr, jsGetField, jsTruthy]
      decide
    | str t =>
      simp only [rlWaitStr, jsGetField, jsTruthy]
      decide
    | arr xs =>
      simp only [rlWaitStr, jsGetField, jsTruthy]
      decide
  · rcases parseJson body with _ | v
    · decide
    · cases v <;> first
        | decide
        | exact strContains_right _ (by decide)
  · rcases parseJson body with _ | v
    · decide
    · cases v <;> first
        | decide
        | exact strContains_right _ (by decide)

set_option maxRecDepth 40000 in
/-- C2 witness: a body carrying `retry_after_seconds = 30` yields a text
containing 30; an unparsable body yields the default 60. -/
theorem c2_rate_limited_429_witness :
    strContains (toString (30 : Int))
      (resultText (errorContent (.apiError 429 "\x7b\"retry_after_seconds\":30\x7d"))) ∧
    strContains "wait 60 seconds"
      (resultText (errorContent (.apiError 429 "oops"))) :=
  ⟨(c2_rate_limited_429 "\x7b\"retry_after_seconds\":30\x7d"
      (.obj [("retry_after_seconds", .num 30)]) 30).1 rfl rfl,
   (c2_rate_limited_429 "oops" .null 0).2.1 rfl⟩

/-- The three-attempt fixture of the grouping claim. -/
def c4Example : List JsVal :=
  [.obj [("personality", .str "A"), ("round", .num 1)],
   .obj [("personality", .str "B"), ("round", .num 2)],
   .obj [("personality", .str "A"), ("round", .num 1)]]

set_option maxRecDepth 40000 in
/-- C4: `lucille_history` groups attempts by the key built from the
personality and the round, groups appear in first-seen order and hold exactly the
attempts with their key; on the fixture `[A1, B2, A1]` there are exactly
two groups, A before B, the A-group has two entries, and the rendered
output (with 1-based indices) is as expected. -/
theorem c4_history_grouping :
    (∀ attempts : List JsVal,
      (histGroups attempts).map Prod.fst = firstSeen (attempts.map groupKey) ∧
      ∀ key, lookupGroup (histGroups attempts) key =
        attempts.filter (fun a => groupKey a == key)) ∧
    (histGroups c4Example).map Prod.fst = ["A (Round 1)", "B (Round 2)"] ∧
    (lookupGroup (histGroups c4Example) "A (Round 1)").length = 2 ∧
    resultText (lucille_history 20 none none (.ok (.arr c4Example))) =
      "=== Recent 3 Attempts ===\n\n--- A (Round 1) ---\n1. [Score: undefined] ???\n   Message: \"\"\n   Lucille: \"\"\n\n2. [Score: undefined] ???\n   Message: \"\"\n   Lucille: \"\"\n\n--- B (Round 2) ---\n1. [Score: undefined] ???\n   Message: \"\"\n   Lucille: \"\"" := by
  refine ⟨fun attempts =>
    ⟨histGroups_keys attempts, fun key => histGroups_contents attempts key⟩, ?_, ?_, ?_⟩
  · decide
  · decide
  · decide

/-- Drip fixture: enough balance. -/
def c5HasBalance : JsVal :=
  .obj [("status", .str "has_balance"), ("balance", .str "0.002")]

/-- Drip fixture: cooldown with a server message. -/
def c5Cooldown : JsVal :=
  .obj [("status", .str "cooldown"), ("message", .str "Next claim in 12h")]

/-- Drip fixture: successful claim. -/
def c5Claimed : JsVal :=
  .obj [("status", .str "claimed"), ("amount", .str "0.001"), ("txHash", .str "0xabc123")]

/-- Drip fixture: unrecognised status. -/
def c5Other : JsVal :=
  .obj [("status", .str "pending"), ("detail", .str "queued")]

set_option maxRecDepth 40000 in
/-- C5: `lucille_claim_eth` maps status `has_balance` to the already-funded
message carrying the balance, `cooldown` to a message carrying the
server-supplied text, `claimed` to a message carrying amount and
transaction hash, and any other response to a verbatim JSON echo; the four
shapes are pairwise distinct on fixtures. -/
theorem c5_claim_eth_states (addr : String) (data : JsVal) :
    (jsGetField data "status" = some (.str "has_balance") →
      lucille_claim_eth addr (.ok data) = textContent
        ("✅ You already have enough ETH " ++
         ("(" ++ jsInterp (jsGetField data "balance") ++ " ETH)") ++
         ". No drip needed.\nYou\x27re ready to play — use lucille_contract_info to get the contract details.") ∧
      strContains ("(" ++ jsInterp (jsGetField data "balance") ++ " ETH)")
        (resultText (lucille_claim_eth addr (.ok data)))) ∧
    (jsGetField data "status" = some (.str "cooldown") →
      strContains ("Cooldown active. " ++ jsInterp (jsGetField data "message") ++ ". ")
        (resultText (lucille_claim_eth addr (.ok data)))) ∧
    (jsGetField data "status" = some (.str "claimed") →
      strContains ("Sent " ++ jsInterp (jsGetField data "amount") ++ " ETH to " ++ addr)
        (resultText (lucille_claim_eth addr (.ok data))) ∧
      strContains ("TX: " ++ jsInterp (jsGetField data "txHash"))
        (resultText (lucille_claim_eth addr (.ok data)))) ∧
    (jsStrEq (jsGetField data "status") "has_balance" = false →
      jsStrEq (jsGetField data "status") "cooldown" = false →
      jsStrEq (jsGetField data "status") "claimed" = false →
      resultText (lucille_claim_eth addr (.ok data)) = "Result: " ++ jsonStringify data) ∧
    (resultText (lucille_claim_eth "0x1" (.ok c5HasBalance)) ≠
        resultText (lucille_claim_eth "0x1" (.ok c5Cooldown)) ∧
      resultText (lucille_claim_eth "0x1" (.ok c5HasBalance)) ≠
        resultText (lucille_claim_eth "0x1" (.ok c5Claimed)) ∧
      resultText (lucille_claim_eth "0x1" (.ok c5HasBalance)) ≠
        resultText (lucille_claim_eth "0x1" (.ok c5Other)) ∧
      resultText (lucille_claim_eth "0x1" (.ok c5Cooldown)) ≠
        resultText (lucille_claim_eth "0x1" (.ok c5Claimed)) ∧
      resultText (lucille_claim_eth "0x1" (.ok c5Cooldown)) ≠
        resultText (lucille_claim_eth "0x1" (.ok c5Other)) ∧
      resultText (lucille_claim_eth "0x1" (.ok c5Claimed)) ≠
        resultText (lucille_claim_eth "0x1" (.ok c5Other))) := by
  refine ⟨?_, ?_, ?_, ?_, by decide⟩
  · intro h
    have h1 : jsStrEq (jsGetField data "status") "has_balance" = true := by
      rw [h]; rfl
    have heq : lucille_claim_eth addr (.ok data) = textContent
        ("✅ You already have enough ETH " ++
         ("(" ++ jsInterp (jsGetField data "balance") ++ " ETH)") ++
         ". No drip needed.\nYou\x27re ready to play — use lucille_contract_info to get the contract details.") := by
      simp only [lucille_claim_eth]
      rw [h1, if_pos rfl]
    refine ⟨heq, ?_⟩
    rw [heq, resultText_textContent]
    exact strContains_left _ (strContains_right _ (strContains_self _))
  · intro h
    have h1 : jsStrEq (jsGetField data "status") "has_balance" = false := by
      rw [h]; rfl
    have h2 : jsStrEq (jsGetField data "status") "cooldown" = true := by
      rw [h]; rfl
    have heq : lucille_claim_eth addr (.ok data) = textContent
        ("⏳ " ++
         ("Cooldown active. " ++ jsInterp (jsGetField data "message") ++ ". ") ++
         "You can claim again later.") := by
      simp only [lucille_claim_eth]
      rw [h1, if_neg (by decide), h2, if_pos rfl]
    rw [heq, resultText_textContent]
    exact strContains_left _ (strContains_right _ (strContains_self _))
  · intro h
    have h1 : jsStrEq (jsGetField data "status") "has_balance" = false := by
      rw [h]; rfl
    have h2 : jsStrEq (jsGetField data "status") "cooldown" = false := by
      rw [h]; rfl
    have h3 : jsStrEq (jsGetField data "status") "claimed" = true := by
      rw [h]; rfl
    have heq : lucille_claim_eth addr (.ok data) = textContent
        ("✅ " ++
         ("Sent " ++ jsInterp (jsGetField data "amount") ++ " ETH to " ++ addr) ++
         "\n" ++ ("TX: " ++ jsInterp (jsGetField data "txHash")) ++
         "\nYou\x27re ready to play! Use lucille_contract_info to get contract details, then sign submitAttempt() on-chain.") := by
      simp only [lucille_claim_eth]
      rw [h1, if_neg (by decide), h2, if_neg (by decide), h3, if_pos rfl]
    rw [heq, resultText_textContent]
    constructor
    · exact strContains_left _ (strContains_left _ (strContains_left _
        (strContains_right _ (strContains_self _))))
    · exact strContains_left _ (strContains_right _ (strContains_self _))
  · intro h1 h2 h3
    simp only [lucille_claim_eth]
    rw [h1, if_neg (by decide), h2, if_neg (by decide), h3, if_neg (by decide),
      resultText_textContent]

/-- C5 witness: the fixture responses hit their branches. -/
theorem c5_claim_eth_states_witness :
    strContains ("(" ++ jsInterp (jsGetField c5HasBalance "balance") ++ " ETH)")
      (resultText (lucille_claim_eth "0x1" (.ok c5HasBalance))) ∧
    resultText (lucille_claim_eth "0x1" (.ok c5Other)) =
      "Result: " ++ jsonStringify c5Other :=
  ⟨((c5_claim_eth_states "0x1" c5HasBalance).1 rfl).2,
   (c5_claim_eth_states "0x1" c5Other).2.2.2.1 rfl rfl rfl⟩

theorem jsInterp_some (v : JsVal) : jsInterp (some v) = jsToString v := rfl

theorem winnerSliced_str (victory : Option JsVal) (w : String)
    (h : optChain victory "winner" = some (.str w)) :
    winnerSliced victory = jsSlice w 0 (some 10) := by
  unfold winnerSliced
  rw [h]

/-- The fixture address of the truncation claim. -/
def c6FullAddr : String := "0x1234567890abcdef1234567890abcdef12345678"

/-- History fixture: an attempt with only a player address. -/
def c6Attempt : JsVal := .obj [("player", .str c6FullAddr)]

/-- Leaderboard fixture: a victory record. -/
def c6Victory : JsVal :=
  .obj [("winner", .str c6FullAddr), ("score", .num 97), ("jackpot", .str "0.05")]

/-- Leaderboard fixture: a finished round. -/
def c6Row : JsVal :=
  .obj [("round", .num 3), ("name", .str "Vex"), ("victory", c6Victory)]

/-- C6: the history address is rendered as the first six characters, an
ellipsis, and the last four (the fixture address renders as
`0x1234...5678`); a leaderboard victory renders its winner as the first
ten characters only, immediately followed by the score. -/
theorem c6_truncated_addresses (p w : String) (i : Nat) (a hrow vict : JsVal) :
    (histAddr p = String.mk (p.data.take 6) ++ "..." ++
      String.mk (p.data.drop (p.data.length - 4))) ∧
    histAddr "0x1234567890abcdef1234567890abcdef12345678" = "0x1234...5678" ∧
    (jsGetField a "player" = some (.str p) → p ≠ "" →
      strContains (String.mk (p.data.take 6) ++ "..." ++
        String.mk (p.data.drop (p.data.length - 4))) (itemLine i a)) ∧
    (jsGetField hrow "victory" = some vict → jsTruthy (some vict) = true →
      jsGetField vict "winner" = some (.str w) →
      strContains ("🏆 Won by " ++ String.mk (w.data.take 10) ++ " (score: ")
        (leadLine i hrow)) := by
  have haddr : histAddr p = String.mk (p.data.take 6) ++ "..." ++
      String.mk (p.data.drop (p.data.length - 4)) := by
    unfold histAddr
    rw [jsSlice_take p 6 (by omega), jsSlice_lastFour p]
    simp only [show ((6 : Int)).toNat = 6 from rfl]
  refine ⟨haddr, by decide, ?_, ?_⟩
  · intro h hp
    have ht : jsTruthy (some (.str p)) = true := by
      simp [jsTruthy, hp]
    unfold itemLine
    apply strContains_left
    apply strContains_left
    unfold itemHead
    rw [h, ht, if_pos rfl, jsInterp_str, haddr]
    exact strContains_left _ (strContains_left _ (strContains_right _ (strContains_self _)))
  · intro hv htv hw
    unfold leadLine
    rw [hv, htv, if_pos rfl]
    apply strContains_right
    have hopt : optChain (some vict) "winner" = some (.str w) := by
      cases vict with
      | null => simp [jsTruthy] at htv
      | bool b => simp [jsGetField] at hw
      | num n => simp [jsGetField] at hw
      | str t => simp [jsGetField] at hw
      | arr xs => simp [jsGetField] at hw
      | obj fields =>
        simp only [optChain]
        exact hw
    unfold leadWinnerText
    apply strContains_left
    rw [winnerSliced_str (some vict) w hopt, jsSlice_take w 10 (by omega)]
    exact strContains_self _

/-- C6 witness: the fixture attempt renders `0x1234...5678`; the fixture
round renders the first ten winner characters before the score. -/
theorem c6_truncated_addresses_witness :
    strContains ("0x1234" ++ "..." ++ "5678") (itemLine 1 c6Attempt) ∧
    strContains ("🏆 Won by " ++ "0x12345678" ++ " (score: ") (leadLine 0 c6Row) := by
  constructor
  · exact (c6_truncated_addresses c6FullAddr "" 1 c6Attempt .null .null).2.2.1
      rfl (by decide)
  · exact (c6_truncated_addresses "" c6FullAddr 0 .null c6Row c6Victory).2.2.2
      rfl rfl rfl

/-- A 201-character fixture string. -/
def c7Long : String := String.mk (List.replicate 201 'x')

/-- C7: the `.slice(0, 200)` truncation used for history messages and
responses leaves strings of length at most 200 unchanged and cuts longer
strings to exactly their first 200 characters, with no ellipsis appended;
every rendered history entry carries the truncated message and response
verbatim between the fixed delimiters. -/
theorem c7_truncation_200 (s : String) (i : Nat) (a : JsVal) :
    (s.data.length ≤ 200 → histTrunc s = s) ∧
    (200 < s.data.length → histTrunc s = String.mk (s.data.take 200)) ∧
    strContains ("   Message: \"" ++ histTrunc (jsStrOrEmpty (jsGetField a "message")) ++ "\"\n")
      (itemLine i a) ∧
    strContains ("   Lucille: \"" ++ histTrunc (jsStrOrEmpty (jsGetField a "response")) ++ "\"\n\n")
      (itemLine i a) := by
  have htr : histTrunc s = String.mk (s.data.take 200) := by
    unfold histTrunc
    rw [jsSlice_take s 200 (by omega)]
    simp only [show ((200 : Int)).toNat = 200 from rfl]
  refine ⟨?_, fun _ => htr, ?_, ?_⟩
  · intro hle
    rw [htr, List.take_of_length_le hle, string_mk_data]
  · unfold itemLine
    exact strContains_left _ (strContains_right _ (strContains_self _))
  · unfold itemLine
    exact strContains_right _ (strContains_self _)

set_option maxRecDepth 4000 in
/-- C7 witness: a short string is unchanged and the 201-character fixture
is cut to 200. -/
theorem c7_truncation_200_witness :
    histTrunc "abc" = "abc" ∧ histTrunc c7Long = String.mk (c7Long.data.take 200) :=
  ⟨(c7_truncation_200 "abc" 0 .null).1 (by decide),
   (c7_truncation_200 c7Long 0 .null).2.1 (by decide)⟩

/-- The cost line occurs verbatim in the contract-info output, whatever
cost string is interpolated. -/
theorem contractInfo_contains_cost (c : String) :
    strContains ("Current cost per attempt: " ++ c ++ " wei")
      (contractInfoPre ++ c ++ contractInfoPost) := by
  show _ <:+: _
  refine ⟨contractInfoHeader.data, ("\n\n" : String).data ++ contractInfoTail.data, ?_⟩
  simp only [contractInfoPre, contractInfoPost, str_data_append,
    List.append_assoc, List.cons_append, List.nil_append]

/-- The counterexample response: `baseCost` present but `0`. -/
def c8Data : JsVal := .obj [("baseCost", .num 0)]

/-- C8 counterexample: on a game-state response with `baseCost` present
(value 0) and `currentCost` absent, the claim as stated requires the
baseCost value 0 to be used, but the output shows the placeholder cost
line `Current cost per attempt: 1 wei` and is not the output that renders
the baseCost value 0 — JavaScript `||` treats the present-but-falsy
`baseCost` like an absent one. -/
theorem c8_counterexample :
    jsGetField c8Data "baseCost" = some (.num 0) ∧
    jsGetField c8Data "currentCost" = none ∧
    resultText (lucille_contract_info (.ok c8Data)) =
      contractInfoPre ++ "1" ++ contractInfoPost ∧
    resultText (lucille_contract_info (.ok c8Data)) ≠
      contractInfoPre ++ jsToString (.num 0) ++ contractInfoPost ∧
    strContains "Current cost per attempt: 1 wei"
      (resultText (lucille_contract_info (.ok c8Data))) := by
  have h1 : jsTruthy (none : Option JsVal) = false := rfl
  have h0 : jsTruthy (some (JsVal.num 0)) = false := rfl
  have heq : resultText (lucille_contract_info (.ok c8Data)) =
      contractInfoPre ++ "1" ++ contractInfoPost := by
    simp only [lucille_contract_info]
    rw [show jsGetField c8Data "baseCost" = some (.num 0) from rfl,
      show jsGetField c8Data "currentCost" = none from rfl,
      h0, h1, if_neg (by decide), if_neg (by decide), resultText_textContent]
  refine ⟨rfl, rfl, heq, ?_, ?_⟩
  · intro hcontra
    rw [heq] at hcontra
    have hd := congrArg String.data hcontra
    simp only [str_data_append] at hd
    have h2 := List.append_cancel_right hd
    have h3 := List.append_cancel_left h2
    exact absurd h3 (by decide)
  · rw [heq]
    have hc := contractInfo_contains_cost "1"
    rwa [show ("Current cost per attempt: " ++ "1" ++ " wei" : String) =
      "Current cost per attempt: 1 wei" from by decide] at hc

/-- C8 (amended): when both `baseCost` and `currentCost` are absent the
cost line shows the hardcoded placeholder 1 wei; when `currentCost` is
absent and `baseCost` is present *and truthy* (nonzero, non-empty), the
baseCost value is used; a present-but-falsy `baseCost` falls back to the
placeholder like an absent one. -/
theorem c8_cost_fallback_amended (data : JsVal) :
    (jsGetField data "baseCost" = none → jsGetField data "currentCost" = none →
      resultText (lucille_contract_info (.ok data)) =
        contractInfoPre ++ "1" ++ contractInfoPost ∧
      strContains "Current cost per attempt: 1 wei"
        (resultText (lucille_contract_info (.ok data)))) ∧
    (∀ v : JsVal, jsGetField data "currentCost" = none →
      jsGetField data "baseCost" = some v → jsTruthy (some v) = true →
      resultText (lucille_contract_info (.ok data)) =
        contractInfoPre ++ jsToString v ++ contractInfoPost) := by
  constructor
  · intro hb hc
    have h1 : jsTruthy (none : Option JsVal) = false := rfl
    have heq : resultText (lucille_contract_info (.ok data)) =
        contractInfoPre ++ "1" ++ contractInfoPost := by
      simp only [lucille_contract_info]
      rw [hb, hc, h1, if_neg (by decide), if_neg (by decide), resultText_textContent]
    refine ⟨heq, ?_⟩
    rw [heq]
    have hcon := contractInfo_contains_cost "1"
    rwa [show ("Current cost per attempt: " ++ "1" ++ " wei" : String) =
      "Current cost per attempt: 1 wei" from by decide] at hcon
  · intro v hc hb ht
    have h1 : jsTruthy (none : Option JsVal) = false := rfl
    simp only [lucille_contract_info]
    rw [hb, hc, h1, if_neg (by decide), ht, if_pos rfl, jsInterp_some,
      resultText_textContent]

/-- C8 amended witness: an empty response shows the placeholder; a truthy
`baseCost` of `"5000"` is used. -/
theorem c8_cost_fallback_amended_witness :
    resultText (lucille_contract_info (.ok (.obj []))) =
      contractInfoPre ++ "1" ++ contractInfoPost ∧
    resultText (lucille_contract_info (.ok (.obj [("baseCost", .str "5000")]))) =
      contractInfoPre ++ jsToString (.str "5000") ++ contractInfoPost :=
  ⟨((c8_cost_fallback_amended (.obj [])).1 rfl rfl).1,
   (c8_cost_fallback_amended (.obj [("baseCost", .str "5000")])).2 (.str "5000") rfl rfl rfl⟩
